import Mathlib

/-!
Verification development for SgEExt (Simple gemoji Emoji Extractor).

The definitions below are a shallow embedding of `sgeext.py`.  Strings are
modelled as `List Char` where character-level reasoning is needed; the
filesystem is an explicit association list of paths to contents plus a list
of existing directories; the network is an oracle `String → Option String`
(`none` models a non-200 HTTP response); Python exceptions are modelled with
`Except PyError`.
-/

/-- Python exception kinds raised (or caught) by the code paths modelled
here. -/
inductive PyError where
  | unboundLocal
  | indexError
  | fileNotFound
  | jsonDecodeError
  | permissionError
  | isADirectoryError
  | unicodeDecodeError
deriving DecidableEq, Repr

/-! ## Identifier normalizer (inside `handle_emoji_extraction`)

`unicode = ''.join(format(ord(char), 'x') for char in emoji['emoji'])`
followed by three `re.sub` rewritings.  Identifiers are sequences of
lowercase hexadecimal digits, on which the regexes below act as the plain
pattern rewritings modelled here (the regex wildcard `.` excludes only the
newline character, which never occurs in a hex identifier). -/

/-- `format(n, 'x')`: lowercase hexadecimal digits of `n`, no padding. -/
def pyFormatHex (n : Nat) : List Char :=
  Nat.toDigits 16 n

/-- `''.join(format(ord(char), 'x') for char in glyph)`: the raw identifier
of a glyph, given as the list of its Unicode scalar values. -/
def rawHex (glyph : List Nat) : List Char :=
  (glyph.map pyFormatHex).flatten

/-- `re.sub(r'fe0[ef]$', '', unicode, re.IGNORECASE)`: remove one trailing
variation selector.  (The fourth positional argument of `re.sub` is in fact
`count`, not `flags`; since the pattern is anchored at the end of the string
it can match at most once, so the call removes exactly one trailing
occurrence, as modelled.) -/
def stripVS (s : List Char) : List Char :=
  if s.drop (s.length - 4) = ['f', 'e', '0', 'e']
      ∨ s.drop (s.length - 4) = ['f', 'e', '0', 'f'] then
    s.take (s.length - 4)
  else s

/-- `re.sub(r'^(1f937)(?:200d)(.*)$', r'\1-\2', unicode, ...)`: for the
shrugging family, replace the zero-width-joiner `200d` after the `1f937`
base by a hyphen. -/
def shrugSub (s : List Char) : List Char :=
  if s.take 9 = ['1', 'f', '9', '3', '7', '2', '0', '0', 'd'] then
    ['1', 'f', '9', '3', '7', '-'] ++ s.drop 9
  else s

/-- `re.sub(r'^(1f1)(..)(1f1)(..)$', r'\1\2-\3\4', unicode, ...)`: for flag
emojis (two regional-indicator codepoints), insert a hyphen between the two
codepoint encodings. -/
def flagSub (s : List Char) : List Char :=
  if s.length = 10 ∧ s.take 3 = ['1', 'f', '1']
      ∧ (s.drop 5).take 3 = ['1', 'f', '1'] then
    s.take 5 ++ '-' :: s.drop 5
  else s

/-- The three rewritings of `handle_emoji_extraction`, in source order. -/
def normalizeId (s : List Char) : List Char :=
  flagSub (shrugSub (stripVS s))

/-- The full normalizer: raw hexadecimal identifier of the glyph, then the
three rewritings. -/
def emojiUnicode (glyph : List Nat) : List Char :=
  normalizeId (rawHex glyph)

-- quick sanity checks of the embedding on the spec's examples
example : rawHex [0x1f1e6, 0x1f1f3] = "1f1e61f1f3".data := by decide
example : emojiUnicode [0x1f1e6, 0x1f1f3] = "1f1e6-1f1f3".data := by decide
example : emojiUnicode [0x1f937, 0x200d, 0x2642] = "1f937-2642".data := by decide
example : emojiUnicode [0x1f600] = "1f600".data := by decide
example : emojiUnicode [0x2194, 0xfe0f] = "2194".data := by decide

/-! ## Claim-side normalizer

A second formulation of the identifier rewriting, following the wording of
the specification ("removing one trailing 'fe0e' or 'fe0f' if present";
"begins with '1f937' immediately followed by '200d'"; "exactly '1f1', two
characters, '1f1', two characters").  It is compared with the source-derived
`normalizeId` above. -/

/-- Spec wording, step (2): remove one trailing `fe0e` or `fe0f` if
present. -/
def specStripVS (s : List Char) : List Char :=
  match s.reverse with
  | 'e' :: '0' :: 'e' :: 'f' :: t => t.reverse
  | 'f' :: '0' :: 'e' :: 'f' :: t => t.reverse
  | _ => s

/-- Spec wording, step (3): if the identifier begins with `1f937`
immediately followed by `200d`, replace that `200d` with a hyphen. -/
def specShrug (s : List Char) : List Char :=
  match s with
  | '1' :: 'f' :: '9' :: '3' :: '7' :: '2' :: '0' :: '0' :: 'd' :: t =>
      '1' :: 'f' :: '9' :: '3' :: '7' :: '-' :: t
  | _ => s

/-- Spec wording, step (4): if the identifier is exactly `1f1`, two
characters, `1f1`, two characters, insert a hyphen between the pairs. -/
def specFlag (s : List Char) : List Char :=
  match s with
  | '1' :: 'f' :: '1' :: a :: b :: '1' :: 'f' :: '1' :: c :: d :: [] =>
      '1' :: 'f' :: '1' :: a :: b :: '-' :: '1' :: 'f' :: '1' :: c :: d :: []
  | _ => s

/-- Spec wording, steps (2)–(4) in order. -/
def specNormalize (s : List Char) : List Char :=
  specFlag (specShrug (specStripVS s))

/-- Decomposition of a list along a `take` equation. -/
theorem eq_append_of_take_eq {α : Type} {s l : List α} {n : Nat}
    (h : s.take n = l) : s = l ++ s.drop n := by
  conv_lhs => rw [← List.take_append_drop n s]
  rw [h]

/-- Decomposition of a list along a 4-character suffix of its reverse. -/
theorem reverse_struct_of_drop_eq {s : List Char} {c : Char}
    (h : s.drop (s.length - 4) = ['f', 'e', '0', c]) :
    s.reverse = c :: '0' :: 'e' :: 'f' :: (s.take (s.length - 4)).reverse := by
  have hs : s = s.take (s.length - 4) ++ ['f', 'e', '0', c] := by
    conv_lhs => rw [← List.take_append_drop (s.length - 4) s]
    rw [h]
  calc s.reverse = (s.take (s.length - 4) ++ ['f', 'e', '0', c]).reverse := by
        rw [← hs]
    _ = c :: '0' :: 'e' :: 'f' :: (s.take (s.length - 4)).reverse := by
        simp

theorem stripVS_eq_spec (s : List Char) : stripVS s = specStripVS s := by
  unfold specStripVS
  split
  case _ t heq =>
    -- s.reverse = 'e' :: '0' :: 'e' :: 'f' :: t, i.e. s = t.reverse ++ "fe0e"
    have hs : s = t.reverse ++ ['f', 'e', '0', 'e'] := by
      have := congrArg List.reverse heq
      simpa using this
    subst hs
    have hlen : (t.reverse ++ ['f', 'e', '0', 'e']).length - 4 = t.length := by
      simp
    unfold stripVS
    rw [hlen, List.drop_left' (by simp), List.take_left' (by simp)]
    simp
  case _ t heq =>
    have hs : s = t.reverse ++ ['f', 'e', '0', 'f'] := by
      have := congrArg List.reverse heq
      simpa using this
    subst hs
    have hlen : (t.reverse ++ ['f', 'e', '0', 'f']).length - 4 = t.length := by
      simp
    unfold stripVS
    rw [hlen, List.drop_left' (by simp), List.take_left' (by simp)]
    simp
  case _ h1 h2 =>
    unfold stripVS
    rw [if_neg]
    intro h
    rcases h with h | h
    · exact h1 (s.take (s.length - 4)).reverse (reverse_struct_of_drop_eq h)
    · exact h2 (s.take (s.length - 4)).reverse (reverse_struct_of_drop_eq h)

theorem shrugSub_eq_spec (s : List Char) : shrugSub s = specShrug s := by
  unfold specShrug
  split
  case _ t =>
    have hc : List.take 9 ('1' :: 'f' :: '9' :: '3' :: '7' :: '2' :: '0' :: '0' :: 'd' :: t)
        = ['1', 'f', '9', '3', '7', '2', '0', '0', 'd'] := rfl
    unfold shrugSub
    rw [if_pos hc]
    rfl
  case _ h =>
    unfold shrugSub
    rw [if_neg]
    intro hc
    have hs := eq_append_of_take_eq hc
    exact h (s.drop 9) hs

theorem flagSub_eq_spec (s : List Char) : flagSub s = specFlag s := by
  unfold specFlag
  split
  case _ a b c d =>
    unfold flagSub
    rw [if_pos ⟨rfl, rfl, rfl⟩]
    rfl
  case _ h =>
    unfold flagSub
    rw [if_neg]
    rintro ⟨hlen, htake, hmid⟩
    -- reconstruct the exact 10-character shape of s and contradict h
    have h3 := eq_append_of_take_eq htake
    have h5 : s = s.take 5 ++ s.drop 5 := (List.take_append_drop 5 s).symm
    have hmid' := eq_append_of_take_eq hmid
    -- s.take 5 = '1' :: 'f' :: '1' :: (two more chars)
    have hlen3 : (s.drop 3).length = 7 := by
      rw [List.length_drop, hlen]
    rcases hd3 : s.drop 3 with _ | ⟨a, t1⟩
    · rw [hd3] at hlen3; simp at hlen3
    rcases ht1 : t1 with _ | ⟨b, t2⟩
    · rw [hd3, ht1] at hlen3; simp at hlen3
    have ht2 : t2 = s.drop 5 := by
      have : s.drop 5 = (s.drop 3).drop 2 := by
        rw [List.drop_drop]
      rw [this, hd3, ht1]
      rfl
    have hlen8 : ((s.drop 5).drop 3).length = 2 := by
      rw [List.length_drop, List.length_drop, hlen]
    rcases hd8 : (s.drop 5).drop 3 with _ | ⟨c, t3⟩
    · rw [hd8] at hlen8; simp at hlen8
    rcases ht3 : t3 with _ | ⟨d, t4⟩
    · rw [hd8, ht3] at hlen8; simp at hlen8
    have ht4 : t4 = [] := by
      rw [hd8, ht3] at hlen8
      simpa using hlen8
    -- assemble
    have hs5 : s.drop 5 = '1' :: 'f' :: '1' :: c :: d :: [] := by
      rw [hmid', hd8, ht3, ht4]
      simp
    have hs : s = '1' :: 'f' :: '1' :: a :: b :: '1' :: 'f' :: '1' :: c :: d :: [] := by
      rw [h3, hd3, ht1, ht2, hs5]
      simp
    exact h a b c d hs

/-- The source normalizer agrees with the spec-worded pipeline on every
string. -/
theorem normalizeId_eq_spec (s : List Char) : normalizeId s = specNormalize s := by
  unfold normalizeId specNormalize
  rw [stripVS_eq_spec, shrugSub_eq_spec, flagSub_eq_spec]

/-! ## Shape lemmas for re-application of the rewriting -/

/-- Either the shrug rewriting does not apply, or the input has the
`1f937200d…` shape. -/
theorem specShrug_cases (s : List Char) :
    specShrug s = s ∨
      ∃ t, s = '1' :: 'f' :: '9' :: '3' :: '7' :: '2' :: '0' :: '0' :: 'd' :: t := by
  unfold specShrug
  split
  case _ t => exact Or.inr ⟨t, rfl⟩
  case _ => exact Or.inl rfl

/-- Either the flag rewriting does not apply, or the input has the
ten-character `1f1??1f1??` shape. -/
theorem specFlag_cases (s : List Char) :
    specFlag s = s ∨
      ∃ a b c d, s = ['1', 'f', '1', a, b, '1', 'f', '1', c, d] := by
  unfold specFlag
  split
  case _ a b c d => exact Or.inr ⟨a, b, c, d, rfl⟩
  case _ => exact Or.inl rfl

theorem specShrug_on_shrugged (t : List Char) :
    specShrug ('1' :: 'f' :: '9' :: '3' :: '7' :: '-' :: t)
      = '1' :: 'f' :: '9' :: '3' :: '7' :: '-' :: t := rfl

theorem specFlag_on_shrugged (t : List Char) :
    specFlag ('1' :: 'f' :: '9' :: '3' :: '7' :: '-' :: t)
      = '1' :: 'f' :: '9' :: '3' :: '7' :: '-' :: t := rfl

theorem specShrug_fires (t : List Char) :
    specShrug ('1' :: 'f' :: '9' :: '3' :: '7' :: '2' :: '0' :: '0' :: 'd' :: t)
      = '1' :: 'f' :: '9' :: '3' :: '7' :: '-' :: t := rfl

theorem specFlag_fires (a b c d : Char) :
    specFlag ['1', 'f', '1', a, b, '1', 'f', '1', c, d]
      = ['1', 'f', '1', a, b, '-', '1', 'f', '1', c, d] := rfl

theorem specShrug_on_flagged (a b c d : Char) :
    specShrug ['1', 'f', '1', a, b, '-', '1', 'f', '1', c, d]
      = ['1', 'f', '1', a, b, '-', '1', 'f', '1', c, d] := rfl

theorem specFlag_on_flagged (a b c d : Char) :
    specFlag ['1', 'f', '1', a, b, '-', '1', 'f', '1', c, d]
      = ['1', 'f', '1', a, b, '-', '1', 'f', '1', c, d] := rfl

/-- After the shrug and flag passes, neither of those two rewritings can
fire a second time. -/
theorem shrug_flag_stable (s : List Char) :
    specShrug (specFlag (specShrug s)) = specFlag (specShrug s)
      ∧ specFlag (specFlag (specShrug s)) = specFlag (specShrug s) := by
  rcases specShrug_cases s with h | ⟨t, rfl⟩
  · rw [h]
    rcases specFlag_cases s with h2 | ⟨a, b, c, d, rfl⟩
    · rw [h2, h, h2]
      exact ⟨rfl, rfl⟩
    · simp only [specFlag_fires, specShrug_on_flagged, specFlag_on_flagged]
      exact ⟨trivial, trivial⟩
  · simp only [specShrug_fires, specFlag_on_shrugged, specShrug_on_shrugged]
    exact ⟨trivial, trivial⟩

/-- C4: for every glyph, the identifier built by the normalizer equals the
result of concatenating the lowercase hexadecimal encodings of the glyph's
scalar values, then removing one trailing `fe0e`/`fe0f` if present, then
the shrug rule, then the flag rule, in that order; in particular raw
`1f1e61f1f3` normalizes to `1f1e6-1f1f3` and raw `1f937200d2642`
normalizes to `1f937-2642`. -/
theorem C4_normalizer_algorithm :
    (∀ glyph : List Nat, emojiUnicode glyph = specNormalize (rawHex glyph))
      ∧ normalizeId "1f1e61f1f3".data = "1f1e6-1f1f3".data
      ∧ normalizeId "1f937200d2642".data = "1f937-2642".data :=
  ⟨fun glyph => normalizeId_eq_spec (rawHex glyph), by decide, by decide⟩

/-- C6 (counterexample): re-applying the identifier rewriting to an
already-normalized identifier is not always the identity: for the glyph
made of two variation selectors (U+FE0F U+FE0F) the normalized identifier
is `fe0f`, and a second application of the rewriting strips it to the empty
identifier. -/
theorem C6_counterexample :
    ¬ normalizeId (emojiUnicode [0xfe0f, 0xfe0f]) = emojiUnicode [0xfe0f, 0xfe0f] := by
  decide

/-- C6 (amended): the normalizer is idempotent under re-application for
every glyph whose normalized identifier does not itself still end in a
variation selector (`fe0e`/`fe0f`), i.e. whenever the variation-selector
strip leaves the normalized identifier unchanged; the shrug and flag rules
can never fire a second time. -/
theorem C6_normalizer_idempotent_unless_double_vs (glyph : List Nat)
    (h : stripVS (emojiUnicode glyph) = emojiUnicode glyph) :
    normalizeId (emojiUnicode glyph) = emojiUnicode glyph := by
  unfold normalizeId
  rw [h]
  rw [shrugSub_eq_spec, flagSub_eq_spec]
  have hn : emojiUnicode glyph = specFlag (specShrug (stripVS (rawHex glyph))) := by
    unfold emojiUnicode normalizeId
    rw [shrugSub_eq_spec, flagSub_eq_spec]
  rw [hn]
  have h2 := shrug_flag_stable (stripVS (rawHex glyph))
  rw [h2.1, h2.2]

/-- Witness for `C6_normalizer_idempotent_unless_double_vs` at the glyph
U+1F600 (normalized identifier `1f600`, no trailing variation selector). -/
theorem C6_idempotent_witness :
    normalizeId (emojiUnicode [0x1f600]) = emojiUnicode [0x1f600] :=
  C6_normalizer_idempotent_unless_double_vs [0x1f600] (by decide)

/-! ## Filesystem, network, and catalog model -/

/-- A catalog entry of `emoji.json`: an `aliases` array (first element is
the canonical name) and an optional `emoji` field holding the glyph,
modelled as its list of Unicode scalar values. -/
structure Emoji where
  aliases : List String
  glyph : Option (List Nat)
deriving DecidableEq, Repr

/-- Filesystem state: existing regular files (path with contents) and
existing directories. -/
structure FS where
  files : List (String × String)
  dirs : List String
deriving DecidableEq, Repr

/-- `os.path.join` with `os.sep = '/'`. -/
def pathJoin (a b : String) : String := a ++ "/" ++ b

/-- `GITHUB_ASSETS_BASE_URL.format(name)` where the base URL is
`https://github.githubassets.com/images/icons/emoji/` followed by the name
and `.png`. -/
def githubAssetUrl (name : String) : String :=
  "https://github.githubassets.com/images/icons/emoji/" ++ name ++ ".png"

/-- `EMOJI_DB_URL`. -/
def EMOJI_DB_URL : String :=
  "https://github.com/github/gemoji/raw/master/db/emoji.json"

/-- `url.split('/')[-1]`: the characters after the last `/` (the whole
string when it contains no `/`). -/
def lastSegment (url : String) : String :=
  String.mk (url.data.foldl (fun acc c => if c = '/' then [] else acc ++ [c]) [])

/-- Result of one `download_file` call: the returned boolean, the updated
filesystem, the HTTP GET requests issued, and the files written. -/
structure DLOut where
  success : Bool
  fs : FS
  requests : List String
  writes : List String
deriving DecidableEq, Repr

/-- `if not path: path = os.getcwd()` /
`elif not os.path.exists(path): os.makedirs(path, mode=0o755)`. -/
def dlEnsureDir (fs : FS) (path : Option String) : FS :=
  match path with
  | none => fs
  | some p => if p ∈ fs.dirs then fs else { fs with dirs := p :: fs.dirs }

/-- The target file name of `download_file`: `real_name + '.png'` under the
path (defaulting to the working directory), or the URL's last segment. -/
def dlFileName (cwd url : String) (path : Option String)
    (real_name : Option String) : String :=
  match real_name with
  | some n => pathJoin (path.getD cwd) (n ++ ".png")
  | none => pathJoin (path.getD cwd) (lastSegment url)

/-- `download_file(url, path, force, real_name)`.

The network oracle maps a URL to `some body` (HTTP 200) or `none` (any
other status).  `cwd` models `os.getcwd()`. -/
def download_file (net : String → Option String) (cwd : String) (fs : FS)
    (url : String) (path : Option String) (force : Bool)
    (real_name : Option String) : DLOut :=
  let fs1 := dlEnsureDir fs path
  let file_name := dlFileName cwd url path real_name
  -- `if not force and os.path.exists(file_name): return True`
  if force = false ∧ (fs1.files.lookup file_name).isSome then
    { success := true, fs := fs1, requests := [], writes := [] }
  else
    -- `with requests.get(url, stream=True) as get_request: ...`
    match net url with
    | none =>
        { success := false, fs := fs1, requests := [url], writes := [] }
    | some body =>
        { success := true
          fs := { fs1 with files := (file_name, body) :: fs1.files }
          requests := [url]
          writes := [file_name] }

/-- The possible outcomes of `open(file_path)` followed by reading the
stream in text mode: the decoded contents, or one of the failure modes of
the host filesystem.  `undecodable` stands for a file whose bytes are not
valid UTF-8; Python raises `UnicodeDecodeError` when `json.load` reads the
text stream (inside the same `try` block as the `open`). -/
inductive OpenOutcome where
  | content (s : String)
  | fileNotFound
  | permissionDenied
  | isADirectory
  | undecodable
deriving DecidableEq, Repr

/-- `open(file_path)` (and the subsequent text-mode read): raises
`FileNotFoundError` for a missing file, `PermissionError` on a read
forbidden by the host, `IsADirectoryError` when the path names a
directory, and `UnicodeDecodeError` for undecodable bytes. -/
def py_open (openf : String → OpenOutcome) (p : String) : Except PyError String :=
  match openf p with
  | OpenOutcome.content s => Except.ok s
  | OpenOutcome.fileNotFound => Except.error PyError.fileNotFound
  | OpenOutcome.permissionDenied => Except.error PyError.permissionError
  | OpenOutcome.isADirectory => Except.error PyError.isADirectoryError
  | OpenOutcome.undecodable => Except.error PyError.unicodeDecodeError

/-- The open behaviour of an `FS` state made of the ordinary text files
this program itself reads and writes: present files yield their contents,
absent paths raise `FileNotFoundError`. -/
def fsOpen (fs : FS) : String → OpenOutcome := fun p =>
  match fs.files.lookup p with
  | none => OpenOutcome.fileNotFound
  | some c => OpenOutcome.content c

/-- `json.load` with an abstract parser oracle; a parse failure raises
`json.JSONDecodeError`. -/
def json_load (parse : String → Option (List Emoji)) (s : String) :
    Except PyError (List Emoji) :=
  match parse s with
  | none => Except.error PyError.jsonDecodeError
  | some db => Except.ok db

/-- `open_and_load_emojis_db(file_path)`: open the file and load it as
JSON; `FileNotFoundError` and `json.JSONDecodeError` are caught and yield
an empty list; any other exception kind (`PermissionError`,
`IsADirectoryError`, `UnicodeDecodeError`, …) propagates to the caller. -/
def open_and_load_emojis_db (parse : String → Option (List Emoji))
    (openf : String → OpenOutcome) (file_path : String) :
    Except PyError (List Emoji) :=
  -- the `try` block covers both the `open` and the `json.load`; the
  -- `except (FileNotFoundError, json.JSONDecodeError)` clause catches
  -- exactly those two exception kinds from either statement
  match py_open openf file_path with
  | Except.error PyError.fileNotFound => Except.ok []
  | Except.error PyError.jsonDecodeError => Except.ok []
  | Except.error e => Except.error e
  | Except.ok content =>
      match json_load parse content with
      | Except.error PyError.fileNotFound => Except.ok []
      | Except.error PyError.jsonDecodeError => Except.ok []
      | Except.error e => Except.error e
      | Except.ok db => Except.ok db

/-- `os.remove(path)`: raises `FileNotFoundError` when the path does not
exist. -/
def os_remove (fs : FS) (p : String) : Except PyError FS :=
  if (fs.files.lookup p).isSome then
    Except.ok { fs with files := fs.files.filter (fun kv => kv.1 != p) }
  else Except.error PyError.fileNotFound

/-- `retrieve_emoji_db(gemoji_local_path)`: load the catalog locally when a
gemoji installation root is known, otherwise download the remote catalog
into the working directory, load it, and remove the temporary file. -/
def retrieve_emoji_db (net : String → Option String)
    (parse : String → Option (List Emoji)) (cwd : String) (fs : FS)
    (gemoji_local_path : Option String) : Except PyError (List Emoji × FS) :=
  match gemoji_local_path with
  | some root =>
      -- `open_and_load_emojis_db(os.path.join(gemoji_local_path + 'db', 'emoji.json'))`
      match open_and_load_emojis_db parse (fsOpen fs)
          (pathJoin (root ++ "db") "emoji.json") with
      | Except.ok db => Except.ok (db, fs)
      | Except.error e => Except.error e
  | none =>
      -- `download_file(EMOJI_DB_URL)`
      let out := download_file net cwd fs EMOJI_DB_URL none false none
      -- `emojis_db_local_file = os.path.join(os.getcwd(), 'emoji.json')`
      let dbfile := pathJoin cwd "emoji.json"
      match open_and_load_emojis_db parse (fsOpen out.fs) dbfile with
      | Except.error e => Except.error e
      | Except.ok db =>
          -- `os.remove(emojis_db_local_file)` (unconditional)
          match os_remove out.fs dbfile with
          | Except.error e => Except.error e
          | Except.ok fs2 => Except.ok (db, fs2)

/-- `handle_github_emojis(first_alias, path, force, gemoji_local_path)`:
without a local install, download the asset; with one, copy
`<root>/images/<alias>.png` to `<path>/<alias>.png` unless it already
exists (and force mode is off).  A missing source file makes `copyfile`
raise `FileNotFoundError`, which this function does not catch. -/
def handle_github_emojis (net : String → Option String) (cwd : String)
    (fs : FS) (first_alias path : String) (force : Bool)
    (gemoji_local_path : Option String) : Except PyError (Bool × FS) :=
  match gemoji_local_path with
  | none =>
      let out := download_file net cwd fs (githubAssetUrl first_alias)
        (some path) force none
      Except.ok (out.success, out.fs)
  | some root =>
      let image_name := first_alias ++ ".png"
      let image_local_path := pathJoin path image_name
      if force = false ∧ (fs.files.lookup image_local_path).isSome then
        Except.ok (true, fs)
      else
        -- `copyfile(os.path.join(gemoji_local_path, 'images', image_name), image_local_path)`
        match fs.files.lookup (pathJoin (pathJoin root "images") image_name) with
        | none => Except.error PyError.fileNotFound
        | some body =>
            Except.ok (true, { fs with files := (image_local_path, body) :: fs.files })

/-- `handle_emoji_extraction(emoji, first_alias, path, force, real_names)`:
normalize the glyph and download the `unicode/` asset. -/
def handle_emoji_extraction (net : String → Option String) (cwd : String)
    (fs : FS) (glyph : List Nat) (first_alias path : String)
    (force real_names : Bool) : DLOut :=
  let unicode := emojiUnicode glyph
  download_file net cwd fs
    (githubAssetUrl ("unicode/" ++ String.mk unicode))
    (some (pathJoin path "unicode")) force
    (if real_names then some first_alias else none)

/-! ## Helper lemmas for the filesystem model -/


theorem dlEnsureDir_files (fs : FS) (path : Option String) :
    (dlEnsureDir fs path).files = fs.files := by
  cases path with
  | none => rfl
  | some p =>
    simp only [dlEnsureDir]
    split <;> rfl

theorem dlEnsureDir_mem_dirs (fs : FS) (p : String) :
    p ∈ (dlEnsureDir fs (some p)).dirs := by
  simp only [dlEnsureDir]
  split
  case _ h => exact h
  case _ h => exact List.mem_cons_self p _

theorem dlEnsureDir_of_mem (fs : FS) (p : String) (h : p ∈ fs.dirs) :
    dlEnsureDir fs (some p) = fs := by
  simp only [dlEnsureDir]
  rw [if_pos h]

theorem dlEnsureDir_none (fs : FS) : dlEnsureDir fs none = fs := rfl

theorem lookup_filter_ne (l : List (String × String)) (p : String) :
    (l.filter (fun kv => kv.1 != p)).lookup p = none := by
  induction l with
  | nil => rfl
  | cons kv t ih =>
    by_cases h : kv.1 = p
    · simp only [List.filter]
      rw [show (kv.1 != p) = false by simp [h]]
      exact ih
    · simp only [List.filter]
      rw [show (kv.1 != p) = true by simp [h]]
      simp only [List.lookup]
      rw [show (p == kv.1) = false by simp [Ne.symm h]]
      exact ih

theorem open_and_load_of_missing (parse : String → Option (List Emoji))
    (fs : FS) (p : String) (hl : fs.files.lookup p = none) :
    open_and_load_emojis_db parse (fsOpen fs) p = Except.ok [] := by
  simp [open_and_load_emojis_db, py_open, fsOpen, hl]

theorem open_and_load_of_parse_fail (parse : String → Option (List Emoji))
    (fs : FS) (p : String) (c : String) (hl : fs.files.lookup p = some c)
    (hp : parse c = none) :
    open_and_load_emojis_db parse (fsOpen fs) p = Except.ok [] := by
  simp [open_and_load_emojis_db, py_open, fsOpen, json_load, hl, hp]

theorem open_and_load_of_parse_ok (parse : String → Option (List Emoji))
    (fs : FS) (p : String) (c : String) (db : List Emoji)
    (hl : fs.files.lookup p = some c) (hp : parse c = some db) :
    open_and_load_emojis_db parse (fsOpen fs) p = Except.ok db := by
  simp [open_and_load_emojis_db, py_open, fsOpen, json_load, hl, hp]

/-- Trichotomy of `open_and_load_emojis_db` over an ordinary filesystem
state (regular readable text files only): it returns, with an empty
catalog on a missing file or a parse failure. -/
theorem open_and_load_trichotomy (parse : String → Option (List Emoji))
    (fs : FS) (p : String) :
    (fs.files.lookup p = none
        ∧ open_and_load_emojis_db parse (fsOpen fs) p = Except.ok [])
      ∨ (∃ c, fs.files.lookup p = some c ∧ parse c = none
        ∧ open_and_load_emojis_db parse (fsOpen fs) p = Except.ok [])
      ∨ (∃ c db, fs.files.lookup p = some c ∧ parse c = some db
        ∧ open_and_load_emojis_db parse (fsOpen fs) p = Except.ok db) := by
  cases hl : fs.files.lookup p with
  | none => exact Or.inl ⟨rfl, open_and_load_of_missing parse fs p hl⟩
  | some c =>
    cases hp : parse c with
    | none =>
      exact Or.inr (Or.inl ⟨c, rfl, hp, open_and_load_of_parse_fail parse fs p c hl hp⟩)
    | some db =>
      exact Or.inr (Or.inr ⟨c, db, rfl, hp, open_and_load_of_parse_ok parse fs p c db hl hp⟩)

/-- C7 (counterexample): `open_and_load_emojis_db` does not survive every
structural or I/O failure of opening or parsing: a read forbidden by the
host raises `PermissionError`, which the
`except (FileNotFoundError, json.JSONDecodeError)` clause does not catch,
so the function raises instead of returning an empty catalog. -/
theorem C7_counterexample :
    open_and_load_emojis_db (fun _ => none)
        (fun _ => OpenOutcome.permissionDenied) "emoji.json"
      = Except.error PyError.permissionError := rfl

/-- C7 (amended): `open_and_load_emojis_db` catches exactly the two
exception kinds its `except` clause names — a missing file
(`FileNotFoundError`) and a JSON parse failure (`json.JSONDecodeError`) —
logging the error and returning an empty catalog so the caller proceeds
and reports zero extractions; every other open/read failure
(`PermissionError`, `IsADirectoryError`, `UnicodeDecodeError`) is not
caught and propagates. -/
theorem C7_loader_two_exceptions (parse : String → Option (List Emoji))
    (openf : String → OpenOutcome) (p : String) :
    (openf p = OpenOutcome.fileNotFound →
        open_and_load_emojis_db parse openf p = Except.ok [])
      ∧ (∀ c, openf p = OpenOutcome.content c → parse c = none →
          open_and_load_emojis_db parse openf p = Except.ok [])
      ∧ (∀ c db, openf p = OpenOutcome.content c → parse c = some db →
          open_and_load_emojis_db parse openf p = Except.ok db)
      ∧ (openf p = OpenOutcome.permissionDenied →
          open_and_load_emojis_db parse openf p
            = Except.error PyError.permissionError)
      ∧ (openf p = OpenOutcome.isADirectory →
          open_and_load_emojis_db parse openf p
            = Except.error PyError.isADirectoryError)
      ∧ (openf p = OpenOutcome.undecodable →
          open_and_load_emojis_db parse openf p
            = Except.error PyError.unicodeDecodeError) := by
  refine ⟨?_, ?_, ?_, ?_, ?_, ?_⟩
  · intro ho
    simp [open_and_load_emojis_db, py_open, ho]
  · intro c ho hp
    simp [open_and_load_emojis_db, py_open, json_load, ho, hp]
  · intro c db ho hp
    simp [open_and_load_emojis_db, py_open, json_load, ho, hp]
  · intro ho
    simp [open_and_load_emojis_db, py_open, ho]
  · intro ho
    simp [open_and_load_emojis_db, py_open, ho]
  · intro ho
    simp [open_and_load_emojis_db, py_open, ho]

/-- Witness for `C7_loader_two_exceptions`: a missing database file yields
the empty catalog. -/
theorem C7_loader_two_exceptions_witness :
    open_and_load_emojis_db (fun _ => none)
        (fun _ => OpenOutcome.fileNotFound) "emoji.json" = Except.ok [] :=
  (C7_loader_two_exceptions (fun _ => none)
    (fun _ => OpenOutcome.fileNotFound) "emoji.json").1 rfl


theorem os_remove_of_present (fs : FS) (p : String)
    (h : (fs.files.lookup p).isSome) :
    os_remove fs p
      = Except.ok { fs with files := fs.files.filter (fun kv => kv.1 != p) } := by
  unfold os_remove
  rw [if_pos h]

theorem os_remove_of_absent (fs : FS) (p : String)
    (h : fs.files.lookup p = none) :
    os_remove fs p = Except.error PyError.fileNotFound := by
  unfold os_remove
  rw [if_neg (by rw [h]; simp)]

/-- Reduction of `retrieve_emoji_db` in the no-local-install branch. -/
theorem retrieve_emoji_db_none_eq (net : String → Option String)
    (parse : String → Option (List Emoji)) (cwd : String) (fs : FS) :
    retrieve_emoji_db net parse cwd fs none =
      match open_and_load_emojis_db parse
          (fsOpen (download_file net cwd fs EMOJI_DB_URL none false none).fs)
          (pathJoin cwd "emoji.json") with
      | Except.error e => Except.error e
      | Except.ok db =>
          match os_remove (download_file net cwd fs EMOJI_DB_URL none false none).fs
              (pathJoin cwd "emoji.json") with
          | Except.error e => Except.error e
          | Except.ok fs2 => Except.ok (db, fs2) := rfl

/-- C3 (counterexample): when no local install root is known and the
download of the remote catalog fails (and no `emoji.json` pre-exists in
the working directory), `retrieve_emoji_db` does not return a catalog: the
unconditional `os.remove` raises `FileNotFoundError`. -/
theorem C3_counterexample :
    retrieve_emoji_db (fun _ => none) (fun _ => none) "/work" ⟨[], []⟩ none
      = Except.error PyError.fileNotFound := rfl

/-- C3 (amended): with no local install root, `retrieve_emoji_db`
downloads the remote catalog into the working directory, loads it, and —
whenever the temporary `emoji.json` is present after the download attempt,
in particular whenever the download reported success, and even when
loading failed — deletes it and returns a catalog (possibly empty); but
when the download fails to materialize `emoji.json`, the unconditional
deletion raises `FileNotFoundError` instead of returning. -/
theorem C3_retrieve_remote (net : String → Option String)
    (parse : String → Option (List Emoji)) (cwd : String) (fs : FS) :
    ((download_file net cwd fs EMOJI_DB_URL none false none).success = true →
        ((download_file net cwd fs EMOJI_DB_URL none false none).fs.files.lookup
          (pathJoin cwd "emoji.json")).isSome)
    ∧ (((download_file net cwd fs EMOJI_DB_URL none false none).fs.files.lookup
          (pathJoin cwd "emoji.json")).isSome →
        ∃ db fs2, retrieve_emoji_db net parse cwd fs none = Except.ok (db, fs2)
          ∧ fs2.files.lookup (pathJoin cwd "emoji.json") = none
          ∧ (∀ c, (download_file net cwd fs EMOJI_DB_URL none false none).fs.files.lookup
              (pathJoin cwd "emoji.json") = some c → parse c = none → db = []))
    ∧ ((download_file net cwd fs EMOJI_DB_URL none false none).fs.files.lookup
          (pathJoin cwd "emoji.json") = none →
        retrieve_emoji_db net parse cwd fs none = Except.error PyError.fileNotFound) := by
  have hname : dlFileName cwd EMOJI_DB_URL none none = pathJoin cwd "emoji.json" := rfl
  refine ⟨?_, ?_, ?_⟩
  · -- success implies the file is present afterwards
    intro hs
    unfold download_file at hs ⊢
    rw [hname] at hs ⊢
    rw [dlEnsureDir_none] at hs ⊢
    by_cases hc : false = false ∧ (fs.files.lookup (pathJoin cwd "emoji.json")).isSome
    · rw [if_pos hc] at hs ⊢
      exact hc.2
    · rw [if_neg hc] at hs ⊢
      cases hn : net EMOJI_DB_URL with
      | none => rw [hn] at hs; simp at hs
      | some body => simp [List.lookup]
  · -- file present after download: run returns .ok, file deleted, [] on parse failure
    intro hpresent
    rw [retrieve_emoji_db_none_eq]
    rcases open_and_load_trichotomy parse
        (download_file net cwd fs EMOJI_DB_URL none false none).fs
        (pathJoin cwd "emoji.json") with
      ⟨hl, _⟩ | ⟨c, hl, hp, hload⟩ | ⟨c, db, hl, hp, hload⟩
    · rw [hl] at hpresent; simp at hpresent
    · refine ⟨[], { (download_file net cwd fs EMOJI_DB_URL none false none).fs with
          files := (download_file net cwd fs EMOJI_DB_URL none false none).fs.files.filter
            (fun kv => kv.1 != pathJoin cwd "emoji.json") }, ?_, ?_, ?_⟩
      · simp only [hload, os_remove_of_present _ _ hpresent]
      · exact lookup_filter_ne _ _
      · intro _ _ _; rfl
    · refine ⟨db, { (download_file net cwd fs EMOJI_DB_URL none false none).fs with
          files := (download_file net cwd fs EMOJI_DB_URL none false none).fs.files.filter
            (fun kv => kv.1 != pathJoin cwd "emoji.json") }, ?_, ?_, ?_⟩
      · simp only [hload, os_remove_of_present _ _ hpresent]
      · exact lookup_filter_ne _ _
      · intro c' hc' hp'
        rw [hl] at hc'
        cases hc'
        rw [hp] at hp'
        cases hp'
  · -- file absent after download: os.remove raises
    intro habsent
    rw [retrieve_emoji_db_none_eq]
    simp only [open_and_load_of_missing parse _ _ habsent,
      os_remove_of_absent _ _ habsent]

/-- Witness for `C3_retrieve_remote`: a successful download of the remote
catalog that fails to parse still deletes the temporary file and yields
the empty catalog. -/
theorem C3_retrieve_remote_witness :
    ∃ db fs2,
      retrieve_emoji_db (fun _ => some "body") (fun _ => none) "/work" ⟨[], []⟩ none
        = Except.ok (db, fs2)
      ∧ fs2.files.lookup (pathJoin "/work" "emoji.json") = none
      ∧ (∀ c,
          (download_file (fun _ => some "body") "/work" ⟨[], []⟩ EMOJI_DB_URL
            none false none).fs.files.lookup (pathJoin "/work" "emoji.json") = some c →
          (fun _ => (none : Option (List Emoji))) c = none → db = []) :=
  (C3_retrieve_remote (fun _ => some "body") (fun _ => none) "/work" ⟨[], []⟩).2.1
    (by decide)

theorem dlEnsureDir_idem (fs : FS) (path : Option String) :
    dlEnsureDir (dlEnsureDir fs path) path = dlEnsureDir fs path := by
  cases path with
  | none => rfl
  | some p => exact dlEnsureDir_of_mem _ p (dlEnsureDir_mem_dirs fs p)

theorem dlEnsureDir_of_forall (fs : FS) (path : Option String)
    (h : ∀ p, path = some p → p ∈ fs.dirs) : dlEnsureDir fs path = fs := by
  cases path with
  | none => rfl
  | some p => exact dlEnsureDir_of_mem fs p (h p rfl)

/-- A `download_file` call whose target directory exists and whose target
file exists, in non-force mode, is a pure no-op reporting success. -/
theorem download_file_skip (net : String → Option String) (cwd : String)
    (fs : FS) (url : String) (path : Option String) (real_name : Option String)
    (hdir : ∀ p, path = some p → p ∈ fs.dirs)
    (hpres : (fs.files.lookup (dlFileName cwd url path real_name)).isSome) :
    download_file net cwd fs url path false real_name
      = ⟨true, fs, [], []⟩ := by
  have hens := dlEnsureDir_of_forall fs path hdir
  unfold download_file
  rw [hens, if_pos ⟨rfl, hpres⟩]

/-- After a successful non-force `download_file`, the target file exists. -/
theorem download_file_success_lookup (net : String → Option String)
    (cwd : String) (fs : FS) (url : String) (path : Option String)
    (real_name : Option String)
    (hs : (download_file net cwd fs url path false real_name).success = true) :
    ((download_file net cwd fs url path false real_name).fs.files.lookup
      (dlFileName cwd url path real_name)).isSome := by
  unfold download_file at hs ⊢
  by_cases hc : false = false
      ∧ ((dlEnsureDir fs path).files.lookup (dlFileName cwd url path real_name)).isSome
  · rw [if_pos hc] at hs ⊢
    exact hc.2
  · rw [if_neg hc] at hs ⊢
    cases hn : net url with
    | none => rw [hn] at hs; simp at hs
    | some body => simp [List.lookup]

/-- The directory requested from `download_file` exists afterwards. -/
theorem download_file_dirs (net : String → Option String) (cwd : String)
    (fs : FS) (url : String) (path : Option String) (force : Bool)
    (real_name : Option String) :
    ∀ p, path = some p →
      p ∈ (download_file net cwd fs url path force real_name).fs.dirs := by
  intro p hp
  subst hp
  unfold download_file
  by_cases hc : force = false
      ∧ ((dlEnsureDir fs (some p)).files.lookup (dlFileName cwd url (some p) real_name)).isSome
  · rw [if_pos hc]
    exact dlEnsureDir_mem_dirs fs p
  · rw [if_neg hc]
    cases hn : net url with
    | none => exact dlEnsureDir_mem_dirs fs p
    | some body => exact dlEnsureDir_mem_dirs fs p

/-- Characterization of a failed non-force `download_file`. -/
theorem download_file_fail (net : String → Option String) (cwd : String)
    (fs : FS) (url : String) (path : Option String) (real_name : Option String)
    (hf : (download_file net cwd fs url path false real_name).success = false) :
    net url = none
    ∧ (download_file net cwd fs url path false real_name).fs = dlEnsureDir fs path
    ∧ (dlEnsureDir fs path).files.lookup (dlFileName cwd url path real_name) = none := by
  unfold download_file at hf ⊢
  by_cases hc : false = false
      ∧ ((dlEnsureDir fs path).files.lookup (dlFileName cwd url path real_name)).isSome
  · rw [if_pos hc] at hf
    simp at hf
  · rw [if_neg hc] at hf ⊢
    have habs : (dlEnsureDir fs path).files.lookup (dlFileName cwd url path real_name) = none := by
      cases hL : (dlEnsureDir fs path).files.lookup (dlFileName cwd url path real_name) with
      | none => rfl
      | some c => exact absurd ⟨rfl, by rw [hL]; rfl⟩ hc
    cases hn : net url with
    | some body => rw [hn] at hf; simp at hf
    | none => exact ⟨rfl, rfl, habs⟩

/-- A non-force `download_file` that cannot skip and whose URL is dead. -/
theorem download_file_fail_result (net : String → Option String) (cwd : String)
    (fs : FS) (url : String) (path : Option String) (real_name : Option String)
    (hens : dlEnsureDir fs path = fs)
    (habs : fs.files.lookup (dlFileName cwd url path real_name) = none)
    (hn : net url = none) :
    download_file net cwd fs url path false real_name
      = ⟨false, fs, [url], []⟩ := by
  unfold download_file
  rw [hens, if_neg (by rw [habs]; simp), hn]

/-- C9: if the computed target file already exists and force mode is off,
`download_file` returns success with no network request and no filesystem
change; consequently re-running the same call after a successful first run
issues no request and changes nothing, and re-running after a failed first
run fails identically without writing any file. -/
theorem C9_download_idempotent :
    (∀ (net : String → Option String) (cwd : String) (fs : FS) (url : String)
        (path : Option String) (force : Bool) (real_name : Option String),
        force = false →
        (∀ p, path = some p → p ∈ fs.dirs) →
        (fs.files.lookup (dlFileName cwd url path real_name)).isSome →
        download_file net cwd fs url path force real_name = ⟨true, fs, [], []⟩)
    ∧ (∀ (net : String → Option String) (cwd : String) (fs : FS) (url : String)
        (path : Option String) (real_name : Option String),
        (download_file net cwd fs url path false real_name).success = true →
        download_file net cwd (download_file net cwd fs url path false real_name).fs
            url path false real_name
          = ⟨true, (download_file net cwd fs url path false real_name).fs, [], []⟩)
    ∧ (∀ (net : String → Option String) (cwd : String) (fs : FS) (url : String)
        (path : Option String) (real_name : Option String),
        (download_file net cwd fs url path false real_name).success = false →
        (download_file net cwd (download_file net cwd fs url path false real_name).fs
            url path false real_name).success = false
        ∧ (download_file net cwd (download_file net cwd fs url path false real_name).fs
            url path false real_name).writes = []) := by
  refine ⟨?_, ?_, ?_⟩
  · intro net cwd fs url path force real_name hf hdir hpres
    subst hf
    exact download_file_skip net cwd fs url path real_name hdir hpres
  · intro net cwd fs url path real_name hs
    exact download_file_skip net cwd _ url path real_name
      (download_file_dirs net cwd fs url path false real_name)
      (download_file_success_lookup net cwd fs url path real_name hs)
  · intro net cwd fs url path real_name hf
    obtain ⟨hn, hfs, habs⟩ := download_file_fail net cwd fs url path real_name hf
    rw [hfs]
    rw [download_file_fail_result net cwd (dlEnsureDir fs path) url path real_name
      (dlEnsureDir_idem fs path) habs hn]
    exact ⟨rfl, rfl⟩

/-- Witness for `C9_download_idempotent`: a call whose target file already
exists returns success with no request and no write. -/
theorem C9_download_idempotent_witness :
    download_file (fun _ => none) "/cwd"
        ⟨[("/out/x.png", "img")], ["/out"]⟩ "https://assets/x.png"
        (some "/out") false none
      = ⟨true, ⟨[("/out/x.png", "img")], ["/out"]⟩, [], []⟩ :=
  C9_download_idempotent.1 (fun _ => none) "/cwd"
    ⟨[("/out/x.png", "img")], ["/out"]⟩ "https://assets/x.png"
    (some "/out") false none rfl
    (by intro p hp; cases hp; exact List.mem_cons_self _ _)
    (by decide)

/-! ## Resolution engine (`perform_emojis_extraction`)

The per-entry acquisition outcomes are abstracted as oracles in `Config`
(`envEmoji` for `handle_emoji_extraction`, `envGithub` for
`handle_github_emojis`, which can raise).  `LoopState` carries the Python
locals of the loop: the mutable `subset` list, the success counter `i`,
and `first_alias` — an `Option` because Python raises `UnboundLocalError`
when it is read before any assignment.  `examined` and `attempts` are
ghost logs recording which entries the loop body ran for and which
canonical names acquisition was attempted for. -/

structure Config where
  only_real : Bool
  envEmoji : Emoji → String → Bool
  envGithub : String → Except PyError Bool

structure LoopState where
  subset : List String
  count : Nat
  firstAlias : Option String
  examined : List Emoji
  attempts : List String
deriving DecidableEq, Repr

/-- `set(emoji['aliases']) & set(subset)`: the distinct aliases of the
entry that occur in the subset (Python's set iteration order is
unspecified; the removals below are order-independent since the elements
are distinct). -/
def matchNames (e : Emoji) (subset : List String) : List String :=
  (e.aliases.filter (fun a => decide (a ∈ subset))).dedup

/-- The classification and acquisition of one entry (`if 'emoji' in emoji:
... elif not only_real_emojis: ...`).  Reading `first_alias` unassigned
raises `UnboundLocalError`. -/
def classify (cfg : Config) (e : Emoji) (st : LoopState) :
    Except PyError LoopState :=
  match e.glyph with
  | some _ =>
      match st.firstAlias with
      | none => Except.error PyError.unboundLocal
      | some fa =>
          match cfg.envEmoji e fa with
          | true =>
              Except.ok { st with attempts := st.attempts ++ [fa],
                                  count := st.count + 1 }
          | false =>
              Except.ok { st with attempts := st.attempts ++ [fa] }
  | none =>
      match cfg.only_real with
      | true => Except.ok st
      | false =>
          match st.firstAlias with
          | none => Except.error PyError.unboundLocal
          | some fa =>
              match cfg.envGithub fa with
              | Except.error er => Except.error er
              | Except.ok true =>
                  Except.ok { st with attempts := st.attempts ++ [fa],
                                      count := st.count + 1 }
              | Except.ok false =>
                  Except.ok { st with attempts := st.attempts ++ [fa] }

/-- One iteration of the `for emoji in emojis_db` loop body.  The returned
boolean is `true` when iteration continues and `false` on `break`. -/
def loopStep (cfg : Config) (e : Emoji) (st : LoopState) :
    Except PyError (LoopState × Bool) :=
  let st0 := { st with examined := st.examined ++ [e] }
  match st0.subset with
  | [] =>
      -- no subset: no filtering, and `first_alias`/`match_names` keep
      -- whatever value they had (never assigned on this path)
      match classify cfg e st0 with
      | Except.error er => Except.error er
      | Except.ok st1 => Except.ok (st1, true)
  | _ :: _ =>
      match matchNames e st0.subset with
      | [] => Except.ok (st0, true)   -- `continue`
      | _ :: _ =>
          match e.aliases with
          | [] => Except.error PyError.indexError   -- `emoji['aliases'][0]`
          | a :: _ =>
              match classify cfg e { st0 with firstAlias := some a } with
              | Except.error er => Except.error er
              | Except.ok st1 =>
                  -- `for match_name in match_names: subset.remove(match_name)`
                  let newSubset :=
                    (matchNames e st0.subset).foldl (fun s m => s.erase m) st1.subset
                  Except.ok ({ st1 with subset := newSubset }, !newSubset.isEmpty)

/-- The full iteration over the catalog. -/
def runLoop (cfg : Config) : List Emoji → LoopState → Except PyError LoopState
  | [], st => Except.ok st
  | e :: rest, st =>
      match loopStep cfg e st with
      | Except.error er => Except.error er
      | Except.ok (st1, true) => runLoop cfg rest st1
      | Except.ok (st1, false) => Except.ok st1

/-- The observable outcome of one run: success count, the aliases reported
as not found, and the ghost logs. -/
structure RunResult where
  count : Nat
  unmatched : List String
  examined : List Emoji
  attempts : List String
deriving DecidableEq, Repr

def initState (subset : List String) : LoopState :=
  ⟨subset, 0, none, [], []⟩

/-- The loop of `perform_emojis_extraction` run from the initial state
(counter `i = 0`, `first_alias` unassigned, caller-supplied subset). -/
def perform_emojis_extraction (cfg : Config) (db : List Emoji)
    (subset : List String) : Except PyError RunResult :=
  match runLoop cfg db (initState subset) with
  | Except.error er => Except.error er
  | Except.ok st => Except.ok ⟨st.count, st.subset, st.examined, st.attempts⟩

/-! ## Invariants of `classify`, `loopStep` and `runLoop` -/

theorem classify_glyph_eq (cfg : Config) (e : Emoji) (st : LoopState)
    (g : List Nat) (fa : String) (hgl : e.glyph = some g)
    (hfa : st.firstAlias = some fa) :
    classify cfg e st = match cfg.envEmoji e fa with
      | true => Except.ok { st with attempts := st.attempts ++ [fa],
                                    count := st.count + 1 }
      | false => Except.ok { st with attempts := st.attempts ++ [fa] } := by
  unfold classify
  rw [hgl, hfa]

theorem classify_glyph_unbound (cfg : Config) (e : Emoji) (st : LoopState)
    (g : List Nat) (hgl : e.glyph = some g) (hfa : st.firstAlias = none) :
    classify cfg e st = Except.error PyError.unboundLocal := by
  unfold classify
  rw [hgl, hfa]

/-- A glyph-less entry in true-emojis-only mode is skipped untouched. -/
theorem classify_only_real_skip (cfg : Config) (e : Emoji) (st : LoopState)
    (ho : cfg.only_real = true) (hgl : e.glyph = none) :
    classify cfg e st = Except.ok st := by
  unfold classify
  rw [hgl, ho]

theorem classify_fake_eq (cfg : Config) (e : Emoji) (st : LoopState)
    (fa : String) (hgl : e.glyph = none) (ho : cfg.only_real = false)
    (hfa : st.firstAlias = some fa) :
    classify cfg e st = match cfg.envGithub fa with
      | Except.error er => Except.error er
      | Except.ok true => Except.ok { st with attempts := st.attempts ++ [fa],
                                              count := st.count + 1 }
      | Except.ok false => Except.ok { st with attempts := st.attempts ++ [fa] } := by
  unfold classify
  rw [hgl, ho, hfa]

theorem classify_fake_unbound (cfg : Config) (e : Emoji) (st : LoopState)
    (hgl : e.glyph = none) (ho : cfg.only_real = false)
    (hfa : st.firstAlias = none) :
    classify cfg e st = Except.error PyError.unboundLocal := by
  unfold classify
  rw [hgl, ho, hfa]

theorem classify_ok_shape (cfg : Config) (e : Emoji) (st st1 : LoopState)
    (h : classify cfg e st = Except.ok st1) :
    st1.subset = st.subset ∧ st1.examined = st.examined
      ∧ st1.firstAlias = st.firstAlias := by
  cases hgl : e.glyph with
  | some g =>
    cases hfa : st.firstAlias with
    | none => rw [classify_glyph_unbound cfg e st g hgl hfa] at h; cases h
    | some fa =>
      rw [classify_glyph_eq cfg e st g fa hgl hfa] at h
      cases he : cfg.envEmoji e fa with
      | true => rw [he] at h; cases h; exact ⟨rfl, rfl, hfa⟩
      | false => rw [he] at h; cases h; exact ⟨rfl, rfl, hfa⟩
  | none =>
    cases ho : cfg.only_real with
    | true =>
      rw [classify_only_real_skip cfg e st ho hgl] at h
      cases h
      exact ⟨rfl, rfl, rfl⟩
    | false =>
      cases hfa : st.firstAlias with
      | none => rw [classify_fake_unbound cfg e st hgl ho hfa] at h; cases h
      | some fa =>
        rw [classify_fake_eq cfg e st fa hgl ho hfa] at h
        cases hgh : cfg.envGithub fa with
        | error er => rw [hgh] at h; cases h
        | ok b =>
          rw [hgh] at h
          cases b with
          | true => cases h; exact ⟨rfl, rfl, hfa⟩
          | false => cases h; exact ⟨rfl, rfl, hfa⟩

/-- When an acquisition path is taken (glyph present, or fake-image mode
allowed), a successful `classify` logs exactly one attempt under the
canonical name `first_alias`. -/
theorem classify_ok_attempts (cfg : Config) (e : Emoji) (st st1 : LoopState)
    (fa : String) (hfa : st.firstAlias = some fa)
    (hacq : e.glyph.isSome ∨ cfg.only_real = false)
    (h : classify cfg e st = Except.ok st1) :
    st1.attempts = st.attempts ++ [fa] := by
  cases hgl : e.glyph with
  | some g =>
    rw [classify_glyph_eq cfg e st g fa hgl hfa] at h
    cases he : cfg.envEmoji e fa with
    | true => rw [he] at h; cases h; rfl
    | false => rw [he] at h; cases h; rfl
  | none =>
    have ho : cfg.only_real = false := by
      rcases hacq with hg | ho
      · rw [hgl] at hg; cases hg
      · exact ho
    rw [classify_fake_eq cfg e st fa hgl ho hfa] at h
    cases hgh : cfg.envGithub fa with
    | error er => rw [hgh] at h; cases h
    | ok b =>
      rw [hgh] at h
      cases b with
      | true => cases h; rfl
      | false => cases h; rfl

theorem loopStep_nosubset (cfg : Config) (e : Emoji) (st : LoopState)
    (hs : st.subset = []) :
    loopStep cfg e st =
      match classify cfg e { st with examined := st.examined ++ [e] } with
      | Except.error er => Except.error er
      | Except.ok st1 => Except.ok (st1, true) := by
  obtain ⟨sub, cnt, fal, ex, att⟩ := st
  subst hs
  rfl

theorem loopStep_nomatch (cfg : Config) (e : Emoji) (st : LoopState)
    (p : String) (ps : List String) (hs : st.subset = p :: ps)
    (hm : matchNames e st.subset = []) :
    loopStep cfg e st
      = Except.ok ({ st with examined := st.examined ++ [e] }, true) := by
  obtain ⟨sub, cnt, fal, ex, att⟩ := st
  subst hs
  simp only [loopStep] at hm ⊢
  rw [hm]

theorem loopStep_match_eq (cfg : Config) (e : Emoji) (st : LoopState)
    (p m a : String) (ps ms as : List String)
    (hs : st.subset = p :: ps) (hm : matchNames e st.subset = m :: ms)
    (ha : e.aliases = a :: as) :
    loopStep cfg e st =
      match classify cfg e { st with examined := st.examined ++ [e],
                                     firstAlias := some a } with
      | Except.error er => Except.error er
      | Except.ok st1 =>
          Except.ok
            ({ st1 with
                subset := (m :: ms).foldl (fun s x => s.erase x) st1.subset },
              !((m :: ms).foldl (fun s x => s.erase x) st1.subset).isEmpty) := by
  obtain ⟨sub, cnt, fal, ex, att⟩ := st
  subst hs
  simp only [loopStep] at hm ⊢
  rw [hm, ha]

theorem matchNames_of_no_aliases (e : Emoji) (sub : List String)
    (ha : e.aliases = []) : matchNames e sub = [] := by
  unfold matchNames
  rw [ha]
  rfl

theorem foldl_erase_subset (mns : List String) :
    ∀ (sub : List String) (x : String),
      x ∈ mns.foldl (fun s m => s.erase m) sub → x ∈ sub := by
  induction mns with
  | nil => intro sub x h; simpa using h
  | cons m ms ih =>
    intro sub x h
    rw [List.foldl_cons] at h
    exact List.mem_of_mem_erase (ih _ x h)

theorem mem_foldl_erase (mns : List String) :
    ∀ (sub : List String), sub.Nodup →
      ∀ x, x ∈ mns.foldl (fun s m => s.erase m) sub
        ↔ (x ∈ sub ∧ x ∉ mns) := by
  induction mns with
  | nil => intro sub _ x; simp
  | cons m ms ih =>
    intro sub hnd x
    rw [List.foldl_cons, ih (sub.erase m) (hnd.erase m), hnd.mem_erase_iff]
    constructor
    · rintro ⟨⟨hne, hx⟩, hnm⟩
      refine ⟨hx, ?_⟩
      intro hmem
      rcases List.mem_cons.mp hmem with h1 | h1
      · exact hne h1
      · exact hnm h1
    · rintro ⟨hx, hn⟩
      refine ⟨⟨?_, hx⟩, ?_⟩
      · intro h1; exact hn (by rw [h1]; exact List.mem_cons_self m ms)
      · intro h1; exact hn (List.mem_cons_of_mem m h1)

theorem runLoop_cons_error (cfg : Config) (e : Emoji) (rest : List Emoji)
    (st : LoopState) (er : PyError) (h : loopStep cfg e st = Except.error er) :
    runLoop cfg (e :: rest) st = Except.error er := by
  unfold runLoop
  rw [h]

theorem runLoop_cons_continue (cfg : Config) (e : Emoji) (rest : List Emoji)
    (st st1 : LoopState) (h : loopStep cfg e st = Except.ok (st1, true)) :
    runLoop cfg (e :: rest) st = runLoop cfg rest st1 := by
  simp only [runLoop]
  rw [h]

theorem runLoop_cons_break (cfg : Config) (e : Emoji) (rest : List Emoji)
    (st st1 : LoopState) (h : loopStep cfg e st = Except.ok (st1, false)) :
    runLoop cfg (e :: rest) st = Except.ok st1 := by
  unfold runLoop
  rw [h]

theorem loopStep_ok_examined (cfg : Config) (e : Emoji) (st st1 : LoopState)
    (c : Bool) (h : loopStep cfg e st = Except.ok (st1, c)) :
    st1.examined = st.examined ++ [e] := by
  cases hsub : st.subset with
  | nil =>
    rw [loopStep_nosubset cfg e st hsub] at h
    cases hcl : classify cfg e { st with examined := st.examined ++ [e] } with
    | error er => rw [hcl] at h; cases h
    | ok st2 =>
      rw [hcl] at h
      cases h
      exact (classify_ok_shape _ _ _ _ hcl).2.1
  | cons p ps =>
    cases hm : matchNames e st.subset with
    | nil =>
      rw [loopStep_nomatch cfg e st p ps hsub hm] at h
      cases h
      rfl
    | cons m ms =>
      cases ha : e.aliases with
      | nil =>
        rw [matchNames_of_no_aliases e st.subset ha] at hm
        cases hm
      | cons a as =>
        rw [loopStep_match_eq cfg e st p m a ps ms as hsub hm ha] at h
        cases hcl : classify cfg e
            { st with examined := st.examined ++ [e], firstAlias := some a } with
        | error er => rw [hcl] at h; cases h
        | ok st2 =>
          rw [hcl] at h
          cases h
          exact (classify_ok_shape _ _ _ _ hcl).2.1

theorem loopStep_ok_subset (cfg : Config) (e : Emoji) (st st1 : LoopState)
    (c : Bool) (h : loopStep cfg e st = Except.ok (st1, c)) :
    ∀ x, x ∈ st1.subset → x ∈ st.subset := by
  intro x hx
  cases hsub : st.subset with
  | nil =>
    rw [loopStep_nosubset cfg e st hsub] at h
    cases hcl : classify cfg e { st with examined := st.examined ++ [e] } with
    | error er => rw [hcl] at h; cases h
    | ok st2 =>
      rw [hcl] at h
      cases h
      have h1 := (classify_ok_shape _ _ _ _ hcl).1
      rw [h1] at hx
      rw [← hsub]
      exact hx
  | cons p ps =>
    cases hm : matchNames e st.subset with
    | nil =>
      rw [loopStep_nomatch cfg e st p ps hsub hm] at h
      cases h
      rw [← hsub]
      exact hx
    | cons m ms =>
      cases ha : e.aliases with
      | nil =>
        rw [matchNames_of_no_aliases e st.subset ha] at hm
        cases hm
      | cons a as =>
        rw [loopStep_match_eq cfg e st p m a ps ms as hsub hm ha] at h
        cases hcl : classify cfg e
            { st with examined := st.examined ++ [e], firstAlias := some a } with
        | error er => rw [hcl] at h; cases h
        | ok st2 =>
          rw [hcl] at h
          cases h
          have h1 := (classify_ok_shape _ _ _ _ hcl).1
          have hmem := foldl_erase_subset (m :: ms) st2.subset x hx
          rw [h1] at hmem
          rw [← hsub]
          exact hmem

theorem runLoop_subset_mono (cfg : Config) :
    ∀ (db : List Emoji) (st st1 : LoopState),
      runLoop cfg db st = Except.ok st1 →
      ∀ x, x ∈ st1.subset → x ∈ st.subset := by
  intro db
  induction db with
  | nil =>
    intro st st1 h x hx
    cases h
    exact hx
  | cons e rest ih =>
    intro st st1 h x hx
    cases hstep : loopStep cfg e st with
    | error er =>
      rw [runLoop_cons_error cfg e rest st er hstep] at h
      cases h
    | ok pr =>
      obtain ⟨st2, c⟩ := pr
      cases c with
      | true =>
        rw [runLoop_cons_continue cfg e rest st st2 hstep] at h
        exact loopStep_ok_subset cfg e st st2 true hstep x (ih st2 st1 h x hx)
      | false =>
        rw [runLoop_cons_break cfg e rest st st2 hstep] at h
        cases h
        exact loopStep_ok_subset cfg e st st1 false hstep x hx

theorem loopStep_break_iff (cfg : Config) (e : Emoji) (st st1 : LoopState)
    (c : Bool) (hne : st.subset ≠ [])
    (h : loopStep cfg e st = Except.ok (st1, c)) :
    (c = false ↔ st1.subset = []) := by
  cases hsub : st.subset with
  | nil => exact absurd hsub hne
  | cons p ps =>
    cases hm : matchNames e st.subset with
    | nil =>
      rw [loopStep_nomatch cfg e st p ps hsub hm] at h
      cases h
      constructor
      · intro hc; cases hc
      · intro hempty
        have hsub' : st.subset = [] := hempty
        rw [hsub] at hsub'
        cases hsub'
    | cons m ms =>
      cases ha : e.aliases with
      | nil =>
        rw [matchNames_of_no_aliases e st.subset ha] at hm
        cases hm
      | cons a as =>
        rw [loopStep_match_eq cfg e st p m a ps ms as hsub hm ha] at h
        cases hcl : classify cfg e
            { st with examined := st.examined ++ [e], firstAlias := some a } with
        | error er => rw [hcl] at h; cases h
        | ok st2 =>
          rw [hcl] at h
          cases h
          simp [List.isEmpty_iff]

/-- C1 (code bug): the default whole-set run (`subset = []`) raises
`UnboundLocalError` at the first entry for which an acquisition is
attempted, because `first_alias` is only ever assigned inside the
`if subset:` block: the run does not iterate the catalog, contradicting
the function's own docstring ("By default, run extraction on the whole
set"). -/
theorem C1_default_run_crashes (cfg : Config) (e : Emoji) (db : List Emoji)
    (h : e.glyph.isSome = true ∨ cfg.only_real = false) :
    perform_emojis_extraction cfg (e :: db) []
      = Except.error PyError.unboundLocal := by
  have hcl : classify cfg e
      { initState [] with examined := (initState []).examined ++ [e] }
      = Except.error PyError.unboundLocal := by
    rcases h with hg | ho
    · obtain ⟨g, hgl⟩ := Option.isSome_iff_exists.mp hg
      exact classify_glyph_unbound cfg e _ g hgl rfl
    · cases hgl : e.glyph with
      | some g => exact classify_glyph_unbound cfg e _ g hgl rfl
      | none => exact classify_fake_unbound cfg e _ hgl ho rfl
  have hstep : loopStep cfg e (initState [])
      = Except.error PyError.unboundLocal := by
    rw [loopStep_nosubset cfg e (initState []) rfl, hcl]
  unfold perform_emojis_extraction
  rw [runLoop_cons_error cfg e db (initState []) PyError.unboundLocal hstep]

/-- Witness for `C1_default_run_crashes`: a one-entry catalog with a glyph
crashes the default run. -/
theorem C1_default_run_crashes_witness :
    perform_emojis_extraction ⟨false, fun _ _ => true, fun _ => Except.ok true⟩
        [⟨["smile"], some [0x1f604]⟩] []
      = Except.error PyError.unboundLocal :=
  C1_default_run_crashes ⟨false, fun _ _ => true, fun _ => Except.ok true⟩
    ⟨["smile"], some [0x1f604]⟩ [] (Or.inl rfl)

/-- C2 (counterexample): with a known gemoji install root and a missing
source image, `handle_github_emojis` raises `FileNotFoundError` (the
`copyfile` call is not guarded), and a run whose fake-image acquisition
raises aborts with that exception instead of continuing with the next
catalog entry — the claim's "reported per-entry failure, run continues" is
false on the code. -/
theorem C2_counterexample :
    handle_github_emojis (fun _ => none) "/cwd" ⟨[], []⟩ "octocat" "/out" false
        (some "/gems/gemoji-3.0.1/")
      = Except.error PyError.fileNotFound
    ∧ runLoop ⟨false, fun _ _ => true, fun _ => Except.error PyError.fileNotFound⟩
        [⟨["octocat"], none⟩, ⟨["smile"], some [0x1f604]⟩]
        (initState ["octocat", "smile"])
      = Except.error PyError.fileNotFound :=
  ⟨rfl, rfl⟩

/-- C2 (amended): in the local-copy acquirer, a missing source image under
the installation's images directory makes the unguarded `copyfile` raise
`FileNotFoundError`; the failure is not reported as a per-entry failure —
the exception propagates out of `handle_github_emojis` and aborts the run,
so the remaining catalog entries are not processed. -/
theorem C2_copy_failure_fatal :
    (∀ (net : String → Option String) (cwd : String) (fs : FS)
        (first_alias path root : String) (force : Bool),
        fs.files.lookup (pathJoin (pathJoin root "images") (first_alias ++ ".png")) = none →
        (force = true ∨ fs.files.lookup (pathJoin path (first_alias ++ ".png")) = none) →
        handle_github_emojis net cwd fs first_alias path force (some root)
          = Except.error PyError.fileNotFound)
    ∧ (∀ (cfg : Config) (e : Emoji) (rest : List Emoji) (st : LoopState)
        (er : PyError),
        loopStep cfg e st = Except.error er →
        runLoop cfg (e :: rest) st = Except.error er) := by
  constructor
  · intro net cwd fs a p root force hsrc htest
    simp only [handle_github_emojis]
    rw [if_neg ?hc]
    case hc =>
      rintro ⟨hf, hpres⟩
      rcases htest with h1 | h1
      · rw [h1] at hf; cases hf
      · rw [h1] at hpres; cases hpres
    rw [hsrc]
  · intro cfg e rest st er h
    exact runLoop_cons_error cfg e rest st er h

/-- Witness for `C2_copy_failure_fatal`: a concrete empty filesystem where
the copy source is missing. -/
theorem C2_copy_failure_fatal_witness :
    handle_github_emojis (fun _ => none) "/cwd" ⟨[], []⟩ "bow" "/out" false
        (some "/root/")
      = Except.error PyError.fileNotFound :=
  C2_copy_failure_fatal.1 (fun _ => none) "/cwd" ⟨[], []⟩ "bow" "/out" "/root/"
    false rfl (Or.inr rfl)

/-- C5: with a subset supplied, an entry is processed iff its aliases
intersect the remaining subset; a no-intersection entry is skipped
untouched; for a processed entry the canonical name used for acquisition
is the entry's first alias regardless of which alias matched, and exactly
the matched aliases — all of them and no others — are removed from the
subset. -/
theorem C5_subset_filtering (cfg : Config) (e : Emoji) (st : LoopState)
    (hne : st.subset ≠ []) (hnd : st.subset.Nodup) :
    (matchNames e st.subset = [] ↔ ∀ x ∈ e.aliases, x ∉ st.subset)
    ∧ (matchNames e st.subset = [] →
        loopStep cfg e st
          = Except.ok ({ st with examined := st.examined ++ [e] }, true))
    ∧ (∀ m ms, matchNames e st.subset = m :: ms →
        ∀ st1 c, loopStep cfg e st = Except.ok (st1, c) →
          ∃ a as, e.aliases = a :: as ∧ st1.firstAlias = some a
            ∧ ((e.glyph.isSome = true ∨ cfg.only_real = false) →
                st1.attempts = st.attempts ++ [a])
            ∧ (∀ x, x ∈ st1.subset
                ↔ (x ∈ st.subset ∧ x ∉ matchNames e st.subset))) := by
  refine ⟨?_, ?_, ?_⟩
  · unfold matchNames
    rw [List.dedup_eq_nil, List.filter_eq_nil_iff]
    simp
  · intro hm
    cases hsub : st.subset with
    | nil => exact absurd hsub hne
    | cons p ps =>
      have hstep := loopStep_nomatch cfg e st p ps hsub hm
      rw [hsub] at hstep
      exact hstep
  · intro m ms hm st1 c h
    cases hsub : st.subset with
    | nil => exact absurd hsub hne
    | cons p ps =>
      cases ha : e.aliases with
      | nil =>
        rw [matchNames_of_no_aliases e st.subset ha] at hm
        cases hm
      | cons a as =>
        rw [loopStep_match_eq cfg e st p m a ps ms as hsub hm ha] at h
        cases hcl : classify cfg e
            { st with examined := st.examined ++ [e], firstAlias := some a } with
        | error er => rw [hcl] at h; cases h
        | ok st2 =>
          rw [hcl] at h
          cases h
          have hsh := classify_ok_shape _ _ _ _ hcl
          refine ⟨a, as, rfl, hsh.2.2, ?_, ?_⟩
          · intro hacq
            exact classify_ok_attempts cfg e
              { st with examined := st.examined ++ [e], firstAlias := some a }
              st2 a rfl hacq hcl
          · intro x
            have h1 : st2.subset = st.subset := hsh.1
            have hnd2 : st2.subset.Nodup := by
              rw [h1]
              exact hnd
            have hiff := mem_foldl_erase (m :: ms) st2.subset hnd2 x
            show x ∈ (m :: ms).foldl (fun s x => s.erase x) st2.subset
              ↔ (x ∈ p :: ps ∧ x ∉ matchNames e (p :: ps))
            rw [← hsub, hm, hiff, h1]

/-- Witness for `C5_subset_filtering`: requesting `bow` matches the entry
whose canonical alias is `bowing_man`, the acquisition is attempted under
`bowing_man`, and `bow` is removed from the subset. -/
theorem C5_subset_filtering_witness :
    ∃ a as, (Emoji.mk ["bowing_man", "bow"] (some [0x1f647])).aliases = a :: as
      ∧ (LoopState.mk [] 1 (some "bowing_man")
          [⟨["bowing_man", "bow"], some [0x1f647]⟩] ["bowing_man"]).firstAlias
        = some a
      ∧ (((Emoji.mk ["bowing_man", "bow"] (some [0x1f647])).glyph.isSome = true
            ∨ (Config.mk false (fun _ _ => true) (fun _ => Except.ok true)).only_real
              = false) →
          (LoopState.mk [] 1 (some "bowing_man")
            [⟨["bowing_man", "bow"], some [0x1f647]⟩] ["bowing_man"]).attempts
            = (initState ["bow"]).attempts ++ [a])
      ∧ (∀ x, x ∈ (LoopState.mk [] 1 (some "bowing_man")
            [⟨["bowing_man", "bow"], some [0x1f647]⟩] ["bowing_man"]).subset
          ↔ (x ∈ (initState ["bow"]).subset
            ∧ x ∉ matchNames ⟨["bowing_man", "bow"], some [0x1f647]⟩
                (initState ["bow"]).subset)) :=
  (C5_subset_filtering ⟨false, fun _ _ => true, fun _ => Except.ok true⟩
      ⟨["bowing_man", "bow"], some [0x1f647]⟩ (initState ["bow"])
      (by decide) (by decide)).2.2
    "bow" [] rfl
    (LoopState.mk [] 1 (some "bowing_man")
      [⟨["bowing_man", "bow"], some [0x1f647]⟩] ["bowing_man"]) false rfl

/-- C8: when a subset is supplied, the iteration stops as soon as the
subset becomes empty: the entry that empties it causes a `break`, the
result is independent of the remaining catalog entries (they are never
examined), and conversely iteration only continues while the subset is
non-empty. -/
theorem C8_early_termination (cfg : Config) :
    (∀ (e : Emoji) (rest : List Emoji) (st st1 : LoopState),
        st.subset ≠ [] → loopStep cfg e st = Except.ok (st1, false) →
        runLoop cfg (e :: rest) st = Except.ok st1
          ∧ st1.subset = []
          ∧ st1.examined = st.examined ++ [e]
          ∧ runLoop cfg (e :: rest) st = runLoop cfg [e] st)
    ∧ (∀ (e : Emoji) (st st1 : LoopState),
        st.subset ≠ [] → loopStep cfg e st = Except.ok (st1, true) →
        st1.subset ≠ []) := by
  constructor
  · intro e rest st st1 hne h
    refine ⟨runLoop_cons_break cfg e rest st st1 h, ?_,
      loopStep_ok_examined cfg e st st1 false h, ?_⟩
    · exact (loopStep_break_iff cfg e st st1 false hne h).mp rfl
    · rw [runLoop_cons_break cfg e rest st st1 h,
        runLoop_cons_break cfg e [] st st1 h]
  · intro e st st1 hne h hempty
    have hfalse := (loopStep_break_iff cfg e st st1 true hne h).mpr hempty
    cases hfalse

/-- Witness for `C8_early_termination`: the entry matching `bow` empties
the subset; a catalog entry placed after it is never examined. -/
theorem C8_early_termination_witness :
    runLoop ⟨false, fun _ _ => true, fun _ => Except.ok true⟩
        [⟨["bowing_man", "bow"], some [0x1f647]⟩, ⟨["later"], some [0x1f600]⟩]
        (initState ["bow"])
      = Except.ok (LoopState.mk [] 1 (some "bowing_man")
          [⟨["bowing_man", "bow"], some [0x1f647]⟩] ["bowing_man"])
    ∧ (LoopState.mk [] 1 (some "bowing_man")
        [⟨["bowing_man", "bow"], some [0x1f647]⟩] ["bowing_man"]).subset = []
    ∧ (LoopState.mk [] 1 (some "bowing_man")
        [⟨["bowing_man", "bow"], some [0x1f647]⟩] ["bowing_man"]).examined
      = (initState ["bow"]).examined ++ [⟨["bowing_man", "bow"], some [0x1f647]⟩]
    ∧ runLoop ⟨false, fun _ _ => true, fun _ => Except.ok true⟩
        [⟨["bowing_man", "bow"], some [0x1f647]⟩, ⟨["later"], some [0x1f600]⟩]
        (initState ["bow"])
      = runLoop ⟨false, fun _ _ => true, fun _ => Except.ok true⟩
          [⟨["bowing_man", "bow"], some [0x1f647]⟩] (initState ["bow"]) :=
  (C8_early_termination ⟨false, fun _ _ => true, fun _ => Except.ok true⟩).1
    ⟨["bowing_man", "bow"], some [0x1f647]⟩ [⟨["later"], some [0x1f600]⟩]
    (initState ["bow"])
    (LoopState.mk [] 1 (some "bowing_man")
      [⟨["bowing_man", "bow"], some [0x1f647]⟩] ["bowing_man"])
    (by decide) rfl

/-- C10: in true-emojis-only mode with a subset supplied, a matching
glyph-less entry is skipped for acquisition (no attempt, counter
unchanged), yet all its matched aliases are removed from the subset —
possibly triggering the early-termination break — and those aliases can
never be in the final unmatched remainder. -/
theorem C10_true_emoji_mode_subset (cfg : Config) (e : Emoji) (st : LoopState)
    (ho : cfg.only_real = true) (hgl : e.glyph = none)
    (hne : st.subset ≠ []) (hnd : st.subset.Nodup)
    (m : String) (ms : List String) (hm : matchNames e st.subset = m :: ms) :
    ∃ st1 c, loopStep cfg e st = Except.ok (st1, c)
      ∧ st1.count = st.count
      ∧ st1.attempts = st.attempts
      ∧ (∀ x, x ∈ st1.subset ↔ (x ∈ st.subset ∧ x ∉ matchNames e st.subset))
      ∧ (c = false ↔ st1.subset = [])
      ∧ (∀ (rest : List Emoji) (st2 : LoopState),
          runLoop cfg rest st1 = Except.ok st2 →
          ∀ x ∈ matchNames e st.subset, x ∉ st2.subset) := by
  cases hsub : st.subset with
  | nil => exact absurd hsub hne
  | cons p ps =>
    cases ha : e.aliases with
    | nil =>
      rw [matchNames_of_no_aliases e st.subset ha] at hm
      cases hm
    | cons a as =>
      have hcl := classify_only_real_skip cfg e
        { st with examined := st.examined ++ [e], firstAlias := some a } ho hgl
      have hstep : loopStep cfg e st = Except.ok
          (LoopState.mk ((m :: ms).foldl (fun s x => s.erase x) st.subset)
              st.count (some a) (st.examined ++ [e]) st.attempts,
            !((m :: ms).foldl (fun s x => s.erase x) st.subset).isEmpty) := by
        rw [loopStep_match_eq cfg e st p m a ps ms as hsub hm ha, hcl]
      refine ⟨_, _, hstep, rfl, rfl, ?_, ?_, ?_⟩
      · intro x
        have hiff := mem_foldl_erase (m :: ms) st.subset hnd x
        show x ∈ (m :: ms).foldl (fun s x => s.erase x) st.subset
          ↔ (x ∈ p :: ps ∧ x ∉ matchNames e (p :: ps))
        rw [← hsub, hm, hiff]
      · show (!((m :: ms).foldl (fun s x => s.erase x) st.subset).isEmpty) = false
          ↔ (m :: ms).foldl (fun s x => s.erase x) st.subset = []
        simp [List.isEmpty_iff]
      · intro rest st2 hrun x hx hmem
        have hx1 := runLoop_subset_mono cfg rest _ st2 hrun x hmem
        have hiff := mem_foldl_erase (m :: ms) st.subset hnd x
        have hin : x ∈ st.subset ∧ x ∉ (m :: ms) := hiff.mp hx1
        rw [← hsub, hm] at hx
        exact hin.2 hx

/-- Witness for `C10_true_emoji_mode_subset`: the glyph-less `octocat`
entry is skipped for acquisition but `octocat` leaves the subset. -/
theorem C10_true_emoji_mode_subset_witness :
    ∃ st1 c, loopStep ⟨true, fun _ _ => true, fun _ => Except.ok true⟩
        ⟨["octocat"], none⟩ (initState ["octocat", "smile"])
      = Except.ok (st1, c)
      ∧ st1.count = (initState ["octocat", "smile"]).count
      ∧ st1.attempts = (initState ["octocat", "smile"]).attempts
      ∧ (∀ x, x ∈ st1.subset
          ↔ (x ∈ (initState ["octocat", "smile"]).subset
            ∧ x ∉ matchNames ⟨["octocat"], none⟩
                (initState ["octocat", "smile"]).subset))
      ∧ (c = false ↔ st1.subset = [])
      ∧ (∀ (rest : List Emoji) (st2 : LoopState),
          runLoop ⟨true, fun _ _ => true, fun _ => Except.ok true⟩ rest st1
            = Except.ok st2 →
          ∀ x ∈ matchNames ⟨["octocat"], none⟩
              (initState ["octocat", "smile"]).subset, x ∉ st2.subset) :=
  C10_true_emoji_mode_subset ⟨true, fun _ _ => true, fun _ => Except.ok true⟩
    ⟨["octocat"], none⟩ (initState ["octocat", "smile"]) rfl rfl
    (by decide) (by decide) "octocat" [] rfl
